import Mathlib

/-!
Verification of the BLE beacon scanner's decoding core
(`src/app/page.tsx` and `src/components/BluetoothScanner.tsx`).

The embedding models a JavaScript `DataView`/`Uint8Array` over its own
`ArrayBuffer` (offset 0) as a list of bytes (`Fin 256`).  Fallible
`DataView` accessors are modelled in `Except String` so that the
`try/catch` wrapper of `parseiBeacon` is explicit.
-/

namespace Beacon

/-- A single byte, as stored in a `Uint8Array` element. -/
abbrev Byte := Fin 256

/-- A `DataView` whose view covers its whole `ArrayBuffer` at offset 0
(as produced by the Web Bluetooth manufacturer/service data maps). -/
abbrev ByteBuffer := List Byte

/-- `DataView.prototype.getUint8(i)`: reads byte `i`, throwing a
`RangeError` when the offset is outside the view. -/
def getUint8 (dv : ByteBuffer) (i : Nat) : Except String Byte :=
  match dv.get? i with
  | some v => .ok v
  | none => .error "RangeError: Offset is outside the bounds of the DataView"

/-- `DataView.prototype.getUint16(i, false)`: big-endian unsigned 16-bit
read, as used for `major` and `minor` in `parseiBeacon`. -/
def getUint16 (dv : ByteBuffer) (i : Nat) : Except String Nat := do
  let hi ← getUint8 dv i
  let lo ← getUint8 dv (i + 1)
  pure ((hi : Nat) * 256 + (lo : Nat))

/-- `DataView.prototype.getInt8(i)`: signed two's-complement 8-bit read,
as used for `txPower` in `parseiBeacon`. -/
def getInt8 (dv : ByteBuffer) (i : Nat) : Except String Int := do
  let v ← getUint8 dv i
  pure (if (v : Nat) < 128 then ((v : Nat) : Int) else ((v : Nat) : Int) - 256)

/-- `new Uint8Array(buffer, off, len)`: throws a `RangeError` when the
requested window does not fit in the buffer. -/
def uint8Subarray (dv : ByteBuffer) (off len : Nat) : Except String ByteBuffer :=
  if off + len ≤ dv.length then .ok ((dv.drop off).take len)
  else .error "RangeError: Invalid typed array length"

/-- JavaScript `Number.prototype.toString(16)` on a natural number:
lowercase hexadecimal digits, no leading zeros (`0` renders as `"0"`). -/
def natToHex (n : Nat) : String := String.mk (Nat.toDigits 16 n)

/-- JavaScript `String.prototype.padStart(n, c)`. -/
def padStart (s : String) (n : Nat) (c : Char) : String :=
  if n ≤ s.length then s
  else String.mk (List.replicate (n - s.length) c) ++ s

/-- The per-byte rendering `b.toString(16).padStart(2, '0')` used by both
`logDataView` and the UUID extraction in `parseiBeacon`. -/
def byteToHex2 (b : Byte) : String := padStart (natToHex (b : Nat)) 2 '0'

/-- JavaScript `Array.prototype.join(' ')`. -/
def joinSpace : List String → String
  | [] => ""
  | [s] => s
  | s :: rest@(_ :: _) => s ++ " " ++ joinSpace rest

/-- The hex rendering of `logDataView`:
`[...new Uint8Array(v.buffer)].map(b => b.toString(16).padStart(2, '0')).join(' ')`. -/
def hexString (bytes : ByteBuffer) : String :=
  joinSpace (bytes.map byteToHex2)

/-- The WHATWG `index-windows-1252` table for pointers 0x00–0x1F
(bytes 0x80–0x9F); the `'ascii'` label of `TextDecoder` denotes the
windows-1252 decoder. -/
def windows1252High : List Nat :=
  [0x20AC, 0x81, 0x201A, 0x192, 0x201E, 0x2026, 0x2020, 0x2021,
   0x2C6, 0x2030, 0x160, 0x2039, 0x152, 0x8D, 0x17D, 0x8F,
   0x90, 0x2018, 0x2019, 0x201C, 0x201D, 0x2022, 0x2013, 0x2014,
   0x2DC, 0x2122, 0x161, 0x203A, 0x153, 0x9D, 0x17E, 0x178]

/-- The code point `new TextDecoder('ascii')` produces for one byte:
bytes below 0x80 map to themselves, bytes 0x80–0x9F through the
windows-1252 index, bytes 0xA0–0xFF again to themselves. -/
def asciiDecodeByte (b : Byte) : Nat :=
  if (b : Nat) < 0x80 then (b : Nat)
  else if (b : Nat) < 0xA0 then (windows1252High.getD ((b : Nat) - 0x80) 0xFFFD)
  else (b : Nat)

/-- The ASCII rendering of `logDataView`:
`new TextDecoder('ascii').decode(valueDataView.buffer)`. -/
def asciiDecode (bytes : ByteBuffer) : String :=
  String.mk (bytes.map (fun b => Char.ofNat (asciiDecodeByte b)))

/-- The single log message emitted by `logDataView` (template literal at
`page.tsx:54` / `BluetoothScanner.tsx:40`). -/
def logDataViewMessage (labelOfDataSource : String) (key : String)
    (bytes : ByteBuffer) : String :=
  "  " ++ labelOfDataSource ++ " Data: " ++ key ++
    "\n    (Hex) " ++ hexString bytes ++ "\n    (ASCII) " ++ asciiDecode bytes

/-- The company table of `getCompanyName` (`page.tsx:134-144`); the
lookup falls back to a synthesized label for ids outside the table. -/
def getCompanyName (id : Nat) : String :=
  if id = 6 then "Microsoft Corporation"
  else if id = 76 then "Apple, Inc."
  else if id = 224 then "Google"
  else if id = 89 then "Nuheara Limited"
  else if id = 117 then "Tencent Holdings Ltd."
  else "Unknown Company (" ++ toString id ++ ")"

/-- The record `parseiBeacon` returns on success. -/
structure IBeaconRecord where
  uuid : String
  major : Nat
  minor : Nat
  txPower : Int
deriving DecidableEq, Repr

/-- The regex replace
`.replace(/(.{8})(.{4})(.{4})(.{4})(.{12})/, '$1-$2-$3-$4-$5')`:
when the string has at least 32 characters the first 32 are regrouped
with hyphens 8-4-4-4-12 and the rest kept; otherwise no match, the
string is unchanged. -/
def groupUuid (s : String) : String :=
  if s.data.length < 32 then s
  else
    String.mk (s.data.take 8) ++ "-" ++
    String.mk ((s.data.drop 8).take 4) ++ "-" ++
    String.mk ((s.data.drop 12).take 4) ++ "-" ++
    String.mk ((s.data.drop 16).take 4) ++ "-" ++
    String.mk ((s.data.drop 20).take 12) ++
    String.mk (s.data.drop 32)

/-- The body of `parseiBeacon` (`page.tsx:147-172`) before its
`try/catch`: a fault in any extraction step surfaces as `.error`; the
two early `return null` guards are the outer if-branches. -/
def parseiBeaconBody (dataView : ByteBuffer) : Except String (Option IBeaconRecord) :=
  if dataView.length < 23 then .ok none
  else do
    let type ← getUint8 dataView 0
    let subType ← getUint8 dataView 1
    if (type : Nat) ≠ 0x02 ∨ (subType : Nat) ≠ 0x15 then .ok none
    else do
      let uuidBytes ← uint8Subarray dataView 2 16
      let uuid := groupUuid (String.join (uuidBytes.map byteToHex2))
      let major ← getUint16 dataView 18
      let minor ← getUint16 dataView 20
      let txPower ← getInt8 dataView 22
      .ok (some ⟨uuid, major, minor, txPower⟩)

/-- `parseiBeacon` (`page.tsx:146-176`): the body wrapped in
`try { ... } catch (error) { return null; }`. -/
def parseiBeacon (dataView : ByteBuffer) : Option IBeaconRecord :=
  match parseiBeaconBody dataView with
  | .ok r => r
  | .error _ => none

/-- The canonical 23-byte iBeacon buffer from the spec. -/
def canonicalBuffer : ByteBuffer :=
  [0x02, 0x15, 0xE2, 0xC5, 0x6D, 0xB5, 0xDF, 0xFB, 0x48, 0xD2, 0xB0, 0x60,
   0xD0, 0xF5, 0xA7, 0x10, 0x96, 0xE0, 0x01, 0x02, 0x00, 0x03, 0xC5]

/-- Byte `i` of a buffer (0 when out of range), for stating decoder
facts. -/
def byteAt (dv : ByteBuffer) (i : Nat) : Byte := dv.getD i 0

/-- The record a successful decode produces, in normal form: hex-grouped
UUID from bytes 2–17, big-endian 16-bit `major`/`minor` from bytes 18–19
and 20–21, two's-complement signed byte 22 as `txPower`. -/
def decodedRecord (dv : ByteBuffer) : IBeaconRecord :=
  ⟨groupUuid (String.join (((dv.drop 2).take 16).map byteToHex2)),
   (byteAt dv 18 : Nat) * 256 + (byteAt dv 19 : Nat),
   (byteAt dv 20 : Nat) * 256 + (byteAt dv 21 : Nat),
   if (byteAt dv 22 : Nat) < 128 then ((byteAt dv 22 : Nat) : Int)
   else ((byteAt dv 22 : Nat) : Int) - 256⟩

/-- The log lines emitted by `handleAdvertisement` for one
manufacturer-data entry (`page.tsx:103-121`): the company line, then
either the structured iBeacon block (Apple id with recognized buffer) or
the raw `logDataView` formatting. -/
def manufacturerEntryLogs (key : Nat) (bytes : ByteBuffer) : List String :=
  let companyLine := "    Company: " ++ getCompanyName key ++ " (ID: " ++ toString key ++ ")"
  if key = 76 then
    match parseiBeacon bytes with
    | some ib =>
        [companyLine,
         "    🎯 iBeacon Detected!",
         "      UUID: " ++ ib.uuid,
         "      Major: " ++ toString ib.major,
         "      Minor: " ++ toString ib.minor,
         "      TX Power: " ++ toString ib.txPower ++ " dBm"]
    | none => [companyLine, logDataViewMessage "    Data" "" bytes]
  else [companyLine, logDataViewMessage "    Data" "" bytes]

/-- Session state of the scanner component: the platform-side set of
active scan handles and of registered `advertisementreceived` listeners,
and the component's `isScanning` / `currentScan` React state. -/
structure ScannerState where
  isScanning : Bool
  currentScan : Option Nat
  activeHandles : List Nat
  listeners : List Nat
  nextId : Nat
deriving DecidableEq, Repr

/-- The page before any scan: nothing active, no listener registered. -/
def initialState : ScannerState :=
  ⟨false, none, [], [], 0⟩

/-- The success path of `startScan` (`page.tsx:178-191`,
`BluetoothScanner.tsx:98-111`): `requestLEScan` hands back a fresh active
handle, `setCurrentScan` keeps it, and `addEventListener` registers one
more `advertisementreceived` handler; no listener is removed first. -/
def startScanStep (st : ScannerState) : ScannerState :=
  { isScanning := true
    currentScan := some st.nextId
    activeHandles := st.nextId :: st.activeHandles
    listeners := st.listeners ++ [st.nextId]
    nextId := st.nextId + 1 }

/-- `stopScan` (`page.tsx:193-201`): stops the current scan handle (if
any is active) and clears the session state; `removeEventListener` is
never called, so `listeners` is untouched. -/
def stopScanStep (st : ScannerState) : ScannerState :=
  match st.currentScan with
  | some h =>
      { isScanning := false
        currentScan := none
        activeHandles := st.activeHandles.filter (fun a => a ≠ h)
        listeners := st.listeners
        nextId := st.nextId }
  | none =>
      { st with isScanning := false, currentScan := none }

/-- Handlers fired by one received advertisement: the platform dispatches
the event to every listener registered on `navigator.bluetooth`. -/
def handlersFired (st : ScannerState) : Nat :=
  st.listeners.length

/-- Splitting a character list on the space character (the inverse side
of the round-trip stated by the spec; the rendering side is `hexString`
from the code). -/
def splitOnSpaces : List Char → List (List Char)
  | [] => [[]]
  | c :: rest =>
    match splitOnSpaces rest with
    | [] => [[]]
    | t :: ts => if c = ' ' then [] :: t :: ts else (c :: t) :: ts

/-- Value of one lowercase hexadecimal digit. -/
def hexDigitVal (c : Char) : Option Nat :=
  if '0' ≤ c ∧ c ≤ '9' then some (c.toNat - 48)
  else if 'a' ≤ c ∧ c ≤ 'f' then some (c.toNat - 87)
  else none

/-- Parsing one two-digit lowercase hex token back into a byte. -/
def parseHexPair (cs : List Char) : Option Byte :=
  match cs with
  | [c1, c2] =>
    match hexDigitVal c1, hexDigitVal c2 with
    | some h, some l =>
        if hb : h * 16 + l < 256 then some ⟨h * 16 + l, hb⟩ else none
    | _, _ => none
  | _ => none

/-- The spec's reading of the hex rendering: split on spaces and parse
each token as a byte pair; the empty rendering denotes zero bytes. -/
def parseHexString (s : String) : Option ByteBuffer :=
  if s.data = [] then some []
  else (splitOnSpaces s.data).mapM parseHexPair

/-- Spec-side rendering of one byte as lowercase two-digit hex, stated
from the spec's words for the refinement claim on the UUID field. -/
def specHexPair (b : Byte) : String :=
  String.mk [Nat.digitChar ((b : Nat) / 16), Nat.digitChar ((b : Nat) % 16)]

/-- Spec-side UUID text: the 16 UUID bytes rendered as lowercase
two-digit hex, grouped 8-4-4-4-12 hex digits (4-2-2-2-6 bytes) with
hyphens — the standard UUID textual form. -/
def specUuid (bytes16 : ByteBuffer) : String :=
  String.join ((bytes16.take 4).map specHexPair) ++ "-" ++
  String.join (((bytes16.drop 4).take 2).map specHexPair) ++ "-" ++
  String.join (((bytes16.drop 6).take 2).map specHexPair) ++ "-" ++
  String.join (((bytes16.drop 8).take 2).map specHexPair) ++ "-" ++
  String.join ((bytes16.drop 10).map specHexPair)

/-- Reading a byte at an in-bounds offset never faults. -/
lemma getUint8_at {dv : ByteBuffer} {i : Nat} (h : i < dv.length) :
    getUint8 dv i = .ok (byteAt dv i) := by
  simp [getUint8, byteAt, List.get?_eq_getElem?, List.getElem?_eq_getElem h,
        List.getD_eq_getElem?_getD]

/-- Chaining a normal result in the `Except` monad. -/
lemma exceptBindOk {α β : Type} (a : α) (f : α → Except String β) :
    (Except.ok a >>= f) = f a := rfl

set_option maxRecDepth 4000 in
/-- Normal form of the decoder body: it never faults, and on a buffer of
length ≥ 23 with the `02 15` marker it produces `decodedRecord`. -/
theorem parseiBeaconBody_eq (dv : ByteBuffer) :
    parseiBeaconBody dv =
      if dv.length < 23 then .ok none
      else if (byteAt dv 0 : Nat) ≠ 0x02 ∨ (byteAt dv 1 : Nat) ≠ 0x15 then .ok none
      else .ok (some (decodedRecord dv)) := by
  by_cases h23 : dv.length < 23
  · simp only [parseiBeaconBody, if_pos h23]
  · have g0 := @getUint8_at dv 0 (by omega)
    have g1 := @getUint8_at dv 1 (by omega)
    have g18 := @getUint8_at dv 18 (by omega)
    have g19 := @getUint8_at dv 19 (by omega)
    have g20 := @getUint8_at dv 20 (by omega)
    have g21 := @getUint8_at dv 21 (by omega)
    have g22 := @getUint8_at dv 22 (by omega)
    have gsub : uint8Subarray dv 2 16 = .ok ((dv.drop 2).take 16) := by
      rw [uint8Subarray, if_pos (by omega)]
    simp only [parseiBeaconBody, if_neg h23, getUint16, getInt8,
               g0, g1, g18, g19, g20, g21, g22, gsub, exceptBindOk, pure_bind,
               decodedRecord]

/-- The decoder body always returns normally. -/
lemma parseiBeaconBody_ok (dv : ByteBuffer) :
    ∃ r, parseiBeaconBody dv = .ok r := by
  rw [parseiBeaconBody_eq]
  by_cases h : dv.length < 23
  · exact ⟨none, by rw [if_pos h]⟩
  · by_cases h2 : (byteAt dv 0 : Nat) ≠ 0x02 ∨ (byteAt dv 1 : Nat) ≠ 0x15
    · exact ⟨none, by rw [if_neg h, if_pos h2]⟩
    · exact ⟨some (decodedRecord dv), by rw [if_neg h, if_neg h2]⟩

/-- Normal form of `parseiBeacon`. -/
theorem parseiBeacon_eq (dv : ByteBuffer) :
    parseiBeacon dv =
      if 23 ≤ dv.length ∧ (byteAt dv 0 : Nat) = 0x02 ∧ (byteAt dv 1 : Nat) = 0x15
      then some (decodedRecord dv) else none := by
  simp only [parseiBeacon, parseiBeaconBody_eq]
  by_cases h23 : dv.length < 23
  · rw [if_pos h23, if_neg (fun hc => absurd hc.1 (by omega))]
  · rw [if_neg h23]
    by_cases hb : (byteAt dv 0 : Nat) ≠ 0x02 ∨ (byteAt dv 1 : Nat) ≠ 0x15
    · rw [if_pos hb, if_neg (fun hc => by tauto)]
    · push_neg at hb
      rw [if_neg (fun hc => hc.elim (fun h => h hb.1) (fun h => h hb.2)),
          if_pos ⟨by omega, hb.1, hb.2⟩]

/-- C1: on the canonical 23-byte buffer
02 15 E2 C5 6D B5 DF FB 48 D2 B0 60 D0 F5 A7 10 96 E0 01 02 00 03 C5,
`parseiBeacon` returns uuid `e2c56db5-dffb-48d2-b060-d0f5a71096e0`,
major 258, minor 3 and txPower -59. -/
theorem parseiBeacon_canonical :
    parseiBeacon canonicalBuffer =
      some ⟨"e2c56db5-dffb-48d2-b060-d0f5a71096e0", 258, 3, -59⟩ := by
  decide

/-- C2: `parseiBeacon` returns `none` exactly when the buffer is shorter
than 23 bytes, or byte 0 is not 0x02, or byte 1 is not 0x15; every buffer
of length ≥ 23 starting with 0x02 0x15 yields a populated record. -/
theorem parseiBeacon_recognition (dv : ByteBuffer) :
    (parseiBeacon dv = none ↔
      dv.length < 23 ∨ (byteAt dv 0 : Nat) ≠ 0x02 ∨ (byteAt dv 1 : Nat) ≠ 0x15) ∧
    (23 ≤ dv.length → (byteAt dv 0 : Nat) = 0x02 → (byteAt dv 1 : Nat) = 0x15 →
      ∃ r, parseiBeacon dv = some r) := by
  rw [parseiBeacon_eq]
  by_cases hcond : 23 ≤ dv.length ∧ (byteAt dv 0 : Nat) = 0x02 ∧
      (byteAt dv 1 : Nat) = 0x15
  · rw [if_pos hcond]
    have hnd : ¬(dv.length < 23 ∨ (byteAt dv 0 : Nat) ≠ 0x02 ∨
        (byteAt dv 1 : Nat) ≠ 0x15) := by
      push_neg
      exact ⟨by omega, hcond.2.1, hcond.2.2⟩
    exact ⟨by simp [hnd], fun _ _ _ => ⟨decodedRecord dv, rfl⟩⟩
  · rw [if_neg hcond]
    have hd : dv.length < 23 ∨ (byteAt dv 0 : Nat) ≠ 0x02 ∨
        (byteAt dv 1 : Nat) ≠ 0x15 := by
      by_contra hc
      push_neg at hc
      exact hcond ⟨by omega, hc.2.1, hc.2.2⟩
    exact ⟨by simp [hd], fun hl h0 h1 => absurd ⟨hl, h0, h1⟩ hcond⟩

/-- Witness for C2 at the canonical buffer. -/
theorem parseiBeacon_recognition_witness :
    ∃ r, parseiBeacon canonicalBuffer = some r :=
  (parseiBeacon_recognition canonicalBuffer).2 (by decide) (by decide) (by decide)

/-- C8: the decoder is total and swallows faults: for every buffer the
body of `parseiBeacon` returns normally (the `catch` is never needed),
and `parseiBeacon` yields that record-or-`none` outcome. -/
theorem parseiBeacon_total_no_fault (dv : ByteBuffer) :
    parseiBeaconBody dv = Except.ok (parseiBeacon dv) := by
  obtain ⟨r, hr⟩ := parseiBeaconBody_ok dv
  simp [parseiBeacon, hr]

/-- C10: the decoder's result depends only on bytes 0–22: two buffers of
length ≥ 23 that agree on their first 23 bytes decode identically. -/
theorem parseiBeacon_first23 (b1 b2 : ByteBuffer)
    (h1 : 23 ≤ b1.length) (h2 : 23 ≤ b2.length)
    (hagree : b1.take 23 = b2.take 23) :
    parseiBeacon b1 = parseiBeacon b2 := by
  have hgd : ∀ i, i < 23 → byteAt b1 i = byteAt b2 i := by
    intro i hi
    have e1 : (b1.take 23)[i]? = b1[i]? := List.getElem?_take_of_lt hi
    have e2 : (b2.take 23)[i]? = b2[i]? := List.getElem?_take_of_lt hi
    simp only [byteAt, List.getD_eq_getElem?_getD, ← e1, ← e2, hagree]
  have hsub : (b1.drop 2).take 16 = (b2.drop 2).take 16 := by
    have h21 : (b1.drop 2).take 21 = (b2.drop 2).take 21 := by
      rw [← List.drop_take 23 2 b1, ← List.drop_take 23 2 b2, hagree]
    have k1 : (b1.drop 2).take 16 = ((b1.drop 2).take 21).take 16 := by
      rw [List.take_take]
      norm_num
    have k2 : (b2.drop 2).take 16 = ((b2.drop 2).take 21).take 16 := by
      rw [List.take_take]
      norm_num
    rw [k1, k2, h21]
  have e0 := hgd 0 (by omega)
  have e1 := hgd 1 (by omega)
  have e18 := hgd 18 (by omega)
  have e19 := hgd 19 (by omega)
  have e20 := hgd 20 (by omega)
  have e21 := hgd 21 (by omega)
  have e22 := hgd 22 (by omega)
  rw [parseiBeacon_eq, parseiBeacon_eq]
  simp only [decodedRecord, e0, e1, e18, e19, e20, e21, e22, hsub, h1, h2,
             true_and]

/-- Witness for C10: appending a trailing byte to the canonical buffer
does not change the decode. -/
theorem parseiBeacon_first23_witness :
    parseiBeacon canonicalBuffer = parseiBeacon (canonicalBuffer ++ [0x42]) :=
  parseiBeacon_first23 canonicalBuffer (canonicalBuffer ++ [0x42])
    (by decide) (by decide) (by decide)

/-- C5: `getCompanyName` is total over the 16-bit domain, and on every
identifier outside the known table it returns the synthesized label
`Unknown Company (<id>)`, which contains the identifier verbatim. -/
theorem getCompanyName_unknown (id : Nat) (_hid : id < 65536)
    (h : id ∉ ([6, 76, 224, 89, 117] : List Nat)) :
    getCompanyName id = "Unknown Company (" ++ toString id ++ ")" := by
  simp only [List.mem_cons, List.not_mem_nil, or_false, not_or] at h
  obtain ⟨h6, h76, h224, h89, h117⟩ := h
  simp [getCompanyName, h6, h76, h224, h89, h117]

/-- Witness for C5 at identifier 1234. -/
theorem getCompanyName_unknown_witness :
    getCompanyName 1234 = "Unknown Company (" ++ toString 1234 ++ ")" :=
  getCompanyName_unknown 1234 (by decide) (by decide)

/-- C6 counterexample: byte 0x00 lies outside the printable ASCII range,
yet the `'ascii'` decoder renders it as the character U+0000 itself — not
as the U+FFFD substitution character. -/
theorem asciiDecode_no_substitution_char :
    asciiDecode [(0 : Byte)] = String.mk [Char.ofNat 0] ∧
    asciiDecode [(0 : Byte)] ≠ String.mk [Char.ofNat 0xFFFD] := by
  decide

set_option maxRecDepth 10000 in
/-- C6 amended: the textual rendering is total, with no error condition:
every input byte decodes to exactly one character, no byte is replaced by
the U+FFFD substitution character, and bytes below 0x80 — printable or
not — decode to their own code point. -/
theorem asciiDecode_total (bytes : ByteBuffer) :
    (asciiDecode bytes).data.length = bytes.length ∧
    (∀ c ∈ (asciiDecode bytes).data, c ≠ Char.ofNat 0xFFFD) ∧
    (∀ i, i < bytes.length → (byteAt bytes i : Nat) < 0x80 →
      (asciiDecode bytes).data.getD i (Char.ofNat 0) =
        Char.ofNat (byteAt bytes i : Nat)) := by
  have hchar : ∀ b : Byte, Char.ofNat (asciiDecodeByte b) ≠ Char.ofNat 0xFFFD := by
    decide
  have hid : ∀ b : Byte, (b : Nat) < 0x80 → asciiDecodeByte b = (b : Nat) := by
    decide
  refine ⟨by simp [asciiDecode], ?_, ?_⟩
  · intro c hc
    simp only [asciiDecode, String.mk] at hc
    obtain ⟨b, _, rfl⟩ := List.mem_map.mp hc
    exact hchar b
  · intro i hi hlt
    have hmap : (asciiDecode bytes).data =
        bytes.map (fun b => Char.ofNat (asciiDecodeByte b)) := rfl
    rw [hmap]
    have he : (bytes.map (fun b => Char.ofNat (asciiDecodeByte b)))[i]? =
        bytes[i]?.map (fun b => Char.ofNat (asciiDecodeByte b)) :=
      List.getElem?_map _ bytes i
    have hb : bytes[i]? = some (byteAt bytes i) := by
      simp [byteAt, List.getD_eq_getElem?_getD, List.getElem?_eq_getElem hi]
    simp [List.getD_eq_getElem?_getD, he, hb, hid _ hlt]

/-- Witness for C6 (amended) on the buffer [0x41]. -/
theorem asciiDecode_total_witness :
    (asciiDecode [(0x41 : Byte)]).data.getD 0 (Char.ofNat 0) =
      Char.ofNat (byteAt [(0x41 : Byte)] 0 : Nat) :=
  (asciiDecode_total [(0x41 : Byte)]).2.2 0 (by decide) (by decide)

/-- The company line printed for Apple's identifier. -/
lemma companyLine76 :
    "    Company: " ++ getCompanyName 76 ++ " (ID: " ++ toString 76 ++ ")" =
      "    Company: Apple, Inc. (ID: 76)" := by
  decide

/-- C7: an Apple (id 76) manufacturer-data entry whose buffer fails
iBeacon recognition is emitted raw (hex/ASCII), never dropped; on
recognition success the structured record is emitted instead of the raw
formatting. -/
theorem appleEntry_fallback (bytes : ByteBuffer) :
    (parseiBeacon bytes = none →
      manufacturerEntryLogs 76 bytes =
        ["    Company: Apple, Inc. (ID: 76)",
         logDataViewMessage "    Data" "" bytes]) ∧
    (∀ ib, parseiBeacon bytes = some ib →
      manufacturerEntryLogs 76 bytes =
        ["    Company: Apple, Inc. (ID: 76)",
         "    🎯 iBeacon Detected!",
         "      UUID: " ++ ib.uuid,
         "      Major: " ++ toString ib.major,
         "      Minor: " ++ toString ib.minor,
         "      TX Power: " ++ toString ib.txPower ++ " dBm"]) := by
  constructor
  · intro h
    simp [manufacturerEntryLogs, h, companyLine76]
  · intro ib h
    simp [manufacturerEntryLogs, h, companyLine76]

/-- Witness for C7 at the canonical buffer (recognized branch). -/
theorem appleEntry_fallback_witness :
    manufacturerEntryLogs 76 canonicalBuffer =
      ["    Company: Apple, Inc. (ID: 76)",
       "    🎯 iBeacon Detected!",
       "      UUID: " ++ ("e2c56db5-dffb-48d2-b060-d0f5a71096e0" : String),
       "      Major: " ++ toString (258 : Nat),
       "      Minor: " ++ toString (3 : Nat),
       "      TX Power: " ++ toString (-59 : Int) ++ " dBm"] :=
  (appleEntry_fallback canonicalBuffer).2
    ⟨"e2c56db5-dffb-48d2-b060-d0f5a71096e0", 258, 3, -59⟩ (by decide)

/-- C9 (code divergence): each `startScan` registers a fresh listener and
none is ever removed, so after a second `startScan` — whether or not the
first session was stopped in between — a single advertisement fires two
handlers, not one. -/
theorem duplicate_handlers_after_restart :
    handlersFired (startScanStep (startScanStep initialState)) = 2 ∧
    handlersFired (startScanStep (stopScanStep (startScanStep initialState))) = 2 ∧
    (startScanStep (startScanStep initialState)).isScanning = true := by
  decide

set_option maxRecDepth 10000 in
/-- Parsing inverts the per-byte rendering. -/
lemma hexPair_roundtrip : ∀ b : Byte, parseHexPair (byteToHex2 b).data = some b := by
  decide

set_option maxRecDepth 10000 in
/-- The per-byte rendering contains no space. -/
lemma hexPair_no_space : ∀ b : Byte, ' ' ∉ (byteToHex2 b).data := by
  decide

set_option maxRecDepth 10000 in
/-- The per-byte rendering is nonempty. -/
lemma hexPair_ne_nil : ∀ b : Byte, (byteToHex2 b).data ≠ [] := by
  decide

/-- Splitting never returns the empty list of tokens. -/
lemma splitOnSpaces_ne_nil (cs : List Char) : splitOnSpaces cs ≠ [] := by
  cases cs with
  | nil => simp [splitOnSpaces]
  | cons c rest =>
    simp only [splitOnSpaces]
    cases splitOnSpaces rest with
    | nil => simp
    | cons t ts =>
      by_cases hc : c = ' ' <;> simp [hc]

/-- A space-free run is one token. -/
lemma splitOnSpaces_no_space (a : List Char) (ha : ' ' ∉ a) :
    splitOnSpaces a = [a] := by
  induction a with
  | nil => rfl
  | cons c cs ih =>
    have hc : ¬(c = ' ') := fun h => ha (by rw [h]; exact List.mem_cons_self ' ' cs)
    have hcs : ' ' ∉ cs := fun h => ha (List.mem_cons_of_mem _ h)
    simp [splitOnSpaces, ih hcs, hc]

/-- Splitting strips the first separator after a space-free run. -/
lemma splitOnSpaces_append (a : List Char) (ha : ' ' ∉ a) (rest : List Char) :
    splitOnSpaces (a ++ ' ' :: rest) = a :: splitOnSpaces rest := by
  induction a with
  | nil =>
    obtain ⟨t, ts, ht⟩ := List.exists_cons_of_ne_nil (splitOnSpaces_ne_nil rest)
    simp [splitOnSpaces, ht]
  | cons c cs ih =>
    have hc : ¬(c = ' ') := fun h => ha (by rw [h]; exact List.mem_cons_self ' ' cs)
    have hcs : ' ' ∉ cs := fun h => ha (List.mem_cons_of_mem _ h)
    simp [splitOnSpaces, ih hcs, hc]

/-- Parsing the rendered tokens recovers the bytes. -/
lemma mapM_parseHexPair (l : ByteBuffer) :
    (l.map (fun b => (byteToHex2 b).data)).mapM parseHexPair = some l := by
  induction l with
  | nil => rfl
  | cons b rest ih =>
    rw [List.map_cons, List.mapM_cons, hexPair_roundtrip b, ih]
    rfl

/-- Character-level decomposition of `hexString` on two or more bytes. -/
lemma hexString_cons₂ (b b2 : Byte) (r2 : List Byte) :
    (hexString (b :: b2 :: r2)).data =
      (byteToHex2 b).data ++ ' ' :: (hexString (b2 :: r2)).data := by
  simp [hexString, joinSpace, String.data_append]

/-- Splitting the full rendering yields exactly the per-byte tokens. -/
lemma hexString_split (bytes : ByteBuffer) (hne : bytes ≠ []) :
    splitOnSpaces (hexString bytes).data =
      bytes.map (fun b => (byteToHex2 b).data) := by
  induction bytes with
  | nil => exact absurd rfl hne
  | cons b rest ih =>
    cases rest with
    | nil =>
      have h1 : (hexString [b]).data = (byteToHex2 b).data := by
        simp [hexString, joinSpace]
      rw [h1, splitOnSpaces_no_space _ (hexPair_no_space b)]
      rfl
    | cons b2 r2 =>
      rw [hexString_cons₂, splitOnSpaces_append _ (hexPair_no_space b),
          ih (by simp)]
      rfl

/-- C4: round-trip of the Byte-Buffer Formatter's hex rendering: for
every buffer, splitting the space-separated lowercase two-digit output on
spaces and parsing each pair reconstructs the buffer exactly. -/
theorem hexString_roundtrip (bytes : ByteBuffer) :
    parseHexString (hexString bytes) = some bytes := by
  cases bytes with
  | nil => simp [hexString, joinSpace, parseHexString]
  | cons b rest =>
    have hne : (hexString (b :: rest)).data ≠ [] := by
      cases rest with
      | nil =>
        have h1 : (hexString [b]).data = (byteToHex2 b).data := by
          simp [hexString, joinSpace]
        rw [h1]
        exact hexPair_ne_nil b
      | cons b2 r2 =>
        rw [hexString_cons₂]
        intro hcontra
        exact hexPair_ne_nil b (List.append_eq_nil.mp hcontra).1
    rw [parseHexString, if_neg hne, hexString_split _ (by simp),
        mapM_parseHexPair]

set_option maxRecDepth 10000 in
/-- The code's `toString(16).padStart(2, '0')` rendering agrees with the
spec's two-digit rendering on every byte. -/
lemma byteToHex2_eq_specHexPair : ∀ b : Byte, byteToHex2 b = specHexPair b := by
  decide

/-- Characters of a joined list of strings. -/
lemma join_data (ss : List String) :
    (String.join ss).data = (ss.map String.data).flatten := by
  have h : ∀ acc : String, (ss.foldl (· ++ ·) acc).data
      = acc.data ++ (ss.map String.data).flatten := by
    induction ss with
    | nil => intro acc; simp
    | cons s rest ih =>
      intro acc
      simp [List.foldl_cons, ih, String.data_append]
  simpa [String.join] using h ""

/-- Taking `2 * k` characters of the flattened two-char renderings takes
the renderings of the first `k` bytes. -/
lemma flatten_map_take (l : List Byte) (k : Nat) :
    ((l.map (fun b => (specHexPair b).data)).flatten).take (2 * k)
      = ((l.take k).map (fun b => (specHexPair b).data)).flatten := by
  induction l generalizing k with
  | nil => simp
  | cons b rest ih =>
    cases k with
    | zero => simp
    | succ k' =>
      rw [List.map_cons, List.flatten_cons, List.take_append_eq_append_take,
          List.take_of_length_le (l := (specHexPair b).data) (by simp [specHexPair]),
          show 2 * (k' + 1) - ((specHexPair b).data).length = 2 * k' by simp [specHexPair]; omega,
          ih, List.take_succ_cons, List.map_cons, List.flatten_cons]

/-- Dropping `2 * k` characters of the flattened two-char renderings
drops the renderings of the first `k` bytes. -/
lemma flatten_map_drop (l : List Byte) (k : Nat) :
    ((l.map (fun b => (specHexPair b).data)).flatten).drop (2 * k)
      = ((l.drop k).map (fun b => (specHexPair b).data)).flatten := by
  induction l generalizing k with
  | nil => simp
  | cons b rest ih =>
    cases k with
    | zero => simp
    | succ k' =>
      have hd : List.drop (2 * (k' + 1)) (specHexPair b).data = [] :=
        List.drop_eq_nil_of_le (by simp [specHexPair])
      rw [List.map_cons, List.flatten_cons, List.drop_append_eq_append_drop, hd,
          show 2 * (k' + 1) - ((specHexPair b).data).length = 2 * k' by simp [specHexPair]; omega,
          ih, List.drop_succ_cons, List.nil_append]

/-- The flattened two-char renderings have twice as many characters as
bytes. -/
lemma flatten_map_length (l : List Byte) :
    ((l.map (fun b => (specHexPair b).data)).flatten).length = 2 * l.length := by
  induction l with
  | nil => rfl
  | cons b rest ih =>
    rw [List.map_cons, List.flatten_cons, List.length_append, ih]
    simp [specHexPair]
    omega

/-- On 16 bytes, the code's join-then-regex-regroup equals the spec's
grouped rendering. -/
lemma groupUuid_spec (l : ByteBuffer) (hlen : l.length = 16) :
    groupUuid (String.join (l.map byteToHex2)) = specUuid l := by
  have hmap : l.map byteToHex2 = l.map specHexPair :=
    List.map_congr_left (fun b _ => byteToHex2_eq_specHexPair b)
  rw [hmap]
  have hdata : (String.join (l.map specHexPair)).data
      = (l.map (fun b => (specHexPair b).data)).flatten := by
    rw [join_data, List.map_map]
    rfl
  have hlen32 : (String.join (l.map specHexPair)).data.length = 32 := by
    rw [hdata, flatten_map_length, hlen]
  have t8 : ((l.map (fun b => (specHexPair b).data)).flatten).take 8
      = ((l.take 4).map (fun b => (specHexPair b).data)).flatten := by
    rw [show (8 : Nat) = 2 * 4 from rfl, flatten_map_take]
  have d8 : (((l.map (fun b => (specHexPair b).data)).flatten).drop 8).take 4
      = (((l.drop 4).take 2).map (fun b => (specHexPair b).data)).flatten := by
    rw [show (8 : Nat) = 2 * 4 from rfl, flatten_map_drop,
        show (4 : Nat) = 2 * 2 from rfl, flatten_map_take]
  have d12 : (((l.map (fun b => (specHexPair b).data)).flatten).drop 12).take 4
      = (((l.drop 6).take 2).map (fun b => (specHexPair b).data)).flatten := by
    rw [show (12 : Nat) = 2 * 6 from rfl, flatten_map_drop,
        show (4 : Nat) = 2 * 2 from rfl, flatten_map_take]
  have d16 : (((l.map (fun b => (specHexPair b).data)).flatten).drop 16).take 4
      = (((l.drop 8).take 2).map (fun b => (specHexPair b).data)).flatten := by
    rw [show (16 : Nat) = 2 * 8 from rfl, flatten_map_drop,
        show (4 : Nat) = 2 * 2 from rfl, flatten_map_take]
  have d20 : (((l.map (fun b => (specHexPair b).data)).flatten).drop 20).take 12
      = ((l.drop 10).map (fun b => (specHexPair b).data)).flatten := by
    rw [show (20 : Nat) = 2 * 10 from rfl, flatten_map_drop,
        show (12 : Nat) = 2 * 6 from rfl, flatten_map_take,
        List.take_of_length_le (by rw [List.length_drop, hlen])]
  have d32 : ((l.map (fun b => (specHexPair b).data)).flatten).drop 32 = [] :=
    List.drop_eq_nil_of_le (by rw [flatten_map_length, hlen])
  apply String.ext
  rw [groupUuid, if_neg (by rw [hlen32]; omega)]
  simp only [String.data_append, specUuid, join_data, List.map_map, Function.comp_def]
  rw [t8, d8, d12, d16, d20, d32]
  simp

/-- C3: on any successful decode, the returned fields are bytes 2–17 as
lowercase hyphen-grouped hex (uuid), bytes 18–19 and 20–21 as big-endian
unsigned 16-bit integers (major, minor), and byte 22 as a signed
two's-complement 8-bit integer (txPower). -/
theorem parseiBeacon_fields (dv : ByteBuffer) (r : IBeaconRecord)
    (h : parseiBeacon dv = some r) :
    r.uuid = specUuid ((dv.drop 2).take 16) ∧
    r.major = (byteAt dv 18 : Nat) * 256 + (byteAt dv 19 : Nat) ∧
    r.minor = (byteAt dv 20 : Nat) * 256 + (byteAt dv 21 : Nat) ∧
    r.txPower = (if (byteAt dv 22 : Nat) < 128 then ((byteAt dv 22 : Nat) : Int)
                 else ((byteAt dv 22 : Nat) : Int) - 256) := by
  rw [parseiBeacon_eq] at h
  by_cases hc : 23 ≤ dv.length ∧ (byteAt dv 0 : Nat) = 0x02 ∧
      (byteAt dv 1 : Nat) = 0x15
  · rw [if_pos hc] at h
    obtain rfl : decodedRecord dv = r := Option.some.inj h
    have h16 : ((dv.drop 2).take 16).length = 16 := by
      rw [List.length_take, List.length_drop]
      omega
    exact ⟨groupUuid_spec _ h16, rfl, rfl, rfl⟩
  · rw [if_neg hc] at h
    exact absurd h (by simp)

/-- Witness for C3 at the canonical buffer. -/
theorem parseiBeacon_fields_witness :
    (IBeaconRecord.mk "e2c56db5-dffb-48d2-b060-d0f5a71096e0" 258 3 (-59)).uuid
        = specUuid ((canonicalBuffer.drop 2).take 16) ∧
    (IBeaconRecord.mk "e2c56db5-dffb-48d2-b060-d0f5a71096e0" 258 3 (-59)).major
        = (byteAt canonicalBuffer 18 : Nat) * 256 + (byteAt canonicalBuffer 19 : Nat) ∧
    (IBeaconRecord.mk "e2c56db5-dffb-48d2-b060-d0f5a71096e0" 258 3 (-59)).minor
        = (byteAt canonicalBuffer 20 : Nat) * 256 + (byteAt canonicalBuffer 21 : Nat) ∧
    (IBeaconRecord.mk "e2c56db5-dffb-48d2-b060-d0f5a71096e0" 258 3 (-59)).txPower
        = (if (byteAt canonicalBuffer 22 : Nat) < 128
           then ((byteAt canonicalBuffer 22 : Nat) : Int)
           else ((byteAt canonicalBuffer 22 : Nat) : Int) - 256) :=
  parseiBeacon_fields canonicalBuffer
    (IBeaconRecord.mk "e2c56db5-dffb-48d2-b060-d0f5a71096e0" 258 3 (-59))
    (by decide)

end Beacon
